import Mathlib

/-!
# MAX11108 ADC driver: read / decode / scale / capture path

Shallow embedding of `drivers/iio/adc/max11108.c`.

* Memory reached through the `int *val`, `int *val2` and `u8 data[16]` pointers is a
  list of bytes; 32-bit stores and loads go through the host byte order.
* Calls into the kernel (`mutex_lock`, `spi_read`, `regulator_get_voltage`, `dev_err`,
  `iio_push_to_buffers_with_timestamp`, `iio_trigger_notify_done`) are recorded as events
  in a trace; what `spi_read`, `regulator_get_voltage` and `iio_get_time_ns` hand back is
  an argument of the embedded function.
* Constants that come from kernel headers are fields of `Consts`.
-/

namespace Max11108

/-! ## Constants -/

/-- Constants the driver takes from kernel headers (`errno.h`, `linux/iio/types.h`,
`linux/iio/iio.h`); their numeric values are not fixed by the driver source. -/
structure Consts where
  EINVAL : Int
  IIO_VAL_INT : Int
  IIO_VAL_FRACTIONAL : Int
  IIO_CHAN_INFO_RAW : Int
  IIO_CHAN_INFO_SCALE : Int

/-- The values these constants have in the Linux tree the driver is built in. -/
def linuxConsts : Consts :=
  { EINVAL := 22
    IIO_VAL_INT := 1
    IIO_VAL_FRACTIONAL := 10
    IIO_CHAN_INFO_RAW := 0
    IIO_CHAN_INFO_SCALE := 2 }

/-- The macro `MAX11108_LSB_DIV`, defined as `(1 << 12)`. -/
def MAX11108_LSB_DIV : Int := ((1 <<< 12 : Nat) : Int)

/-! ## Byte-addressed memory -/

/-- Byte order of the CPU that runs the driver. -/
inductive Endian where
  | little
  | big
  deriving DecidableEq, Repr

/-- A region of memory seen through a pointer: the bytes starting at the pointer. -/
abbrev Mem := List Nat

/-- The four bytes a 32-bit store of `v` leaves in memory, lowest address first. -/
def u32_bytes (e : Endian) (v : Nat) : List Nat :=
  let v := v % 2 ^ 32
  match e with
  | .little => [v % 256, v / 256 % 256, v / 65536 % 256, v / 16777216 % 256]
  | .big => [v / 16777216 % 256, v / 65536 % 256, v / 256 % 256, v % 256]

/-- The store `*((u32 *) p) = v`: overwrite the first four bytes of the region. -/
def store_u32 (e : Endian) (v : Nat) (m : Mem) : Mem :=
  u32_bytes e v ++ m.drop 4

/-- The load `*((u32 *) p)`: read the first four bytes of the region as an unsigned word. -/
def load_u32 (e : Endian) (m : Mem) : Nat :=
  match e with
  | .little => m.getD 0 0 + 256 * m.getD 1 0 + 65536 * m.getD 2 0 + 16777216 * m.getD 3 0
  | .big => 16777216 * m.getD 0 0 + 65536 * m.getD 1 0 + 256 * m.getD 2 0 + m.getD 3 0

/-- The store `*p = x` for `int *p` (32 bits, negative values wrap modulo `2 ^ 32`). -/
def store_int (e : Endian) (x : Int) (m : Mem) : Mem :=
  store_u32 e (x % 2 ^ 32).toNat m

/-- The load `*p` for `int *p` (32 bits, words from `2 ^ 31` up are negative). -/
def load_int (e : Endian) (m : Mem) : Int :=
  let u := load_u32 e m
  if u < 2 ^ 31 then (u : Int) else (u : Int) - 2 ^ 32

/-! ## Channel descriptor -/

/-- Byte order tags of `struct iio_chan_spec.scan_type.endianness`. -/
inductive IioEndian where
  | IIO_CPU
  | IIO_BE
  | IIO_LE
  deriving DecidableEq, Repr

/-- The `scan_type` part of `struct iio_chan_spec`. -/
structure ScanType where
  sign : Char
  realbits : Nat
  storagebits : Nat
  endianness : IioEndian
  deriving DecidableEq, Repr

/-- The fields of `struct iio_chan_spec` the driver sets (`info_mask_separate` holds the
two queried quantities RAW and SCALE). -/
structure ChanSpec where
  channel : Nat
  scan_index : Nat
  scan_type : ScanType
  deriving DecidableEq, Repr

/-- The table `max11108_channels`, with its one entry. -/
def max11108_channels : List ChanSpec :=
  [ { channel := 0
      scan_index := 0
      scan_type := { sign := 'u', realbits := 12, storagebits := 16, endianness := .IIO_LE } } ]

/-! ## Kernel calls as events -/

/-- Calls the driver makes into the rest of the kernel. -/
inductive Event where
  | mutex_lock
  | mutex_unlock
  | spi_read
  | regulator_get_voltage
  | dev_err
  | iio_push_to_buffers_with_timestamp (data : List Nat) (timestamp : Int)
  | iio_trigger_notify_done
  deriving DecidableEq, Repr

/-- State outside the function being run: the device mutex and the calls made so far. -/
structure World where
  lock : Bool
  trace : List Event
  deriving DecidableEq, Repr

/-- Record one call. -/
def emit (w : World) (ev : Event) : World :=
  { w with trace := w.trace ++ [ev] }

/-- The call `mutex_lock(&state->lock)`. The call returns once the caller owns the mutex,
so the state it returns in has the mutex held. -/
def mutex_lock (w : World) : World :=
  emit { w with lock := true } .mutex_lock

/-- The call `mutex_unlock(&state->lock)`. -/
def mutex_unlock (w : World) : World :=
  emit { w with lock := false } .mutex_unlock

/-- What one `spi_read(state->spi, buffer, 3)` hands back: its return value (an `int`: 0
on success, a negative error number on failure) and the three `u8` values found in
`buffer[0]`, `buffer[1]`, `buffer[2]` afterwards. -/
structure SpiXfer where
  status : Int
  b0 : Nat
  b1 : Nat
  b2 : Nat
  deriving DecidableEq, Repr

/-! ## The driver functions -/

/-- Result of `max11108_read_single`: return value, the memory behind `val`, the world. -/
structure ReadSingleResult where
  ret : Int
  val : Mem
  world : World
  deriving DecidableEq, Repr

/-- The function `max11108_read_single(indio_dev, val)`; `xfer` is what `spi_read`
returns, `val` the bytes behind the pointer `val`. -/
def max11108_read_single (K : Consts) (e : Endian) (xfer : SpiXfer) (val : Mem)
    (w : World) : ReadSingleResult :=
  let w := emit w .spi_read
  let ret := xfer.status
  if ret ≠ 0 then
    { ret := ret, val := val, world := emit w .dev_err }
  else if xfer.b2 ≠ 0 then
    { ret := -K.EINVAL, val := val, world := emit w .dev_err }
  else
    let uval := (xfer.b0 <<< 8) ||| xfer.b1
    let uval := uval >>> 1
    let uval := uval &&& 0xfff
    { ret := 0, val := store_u32 e uval val, world := w }

/-- Result of `max11108_read_raw`: return value, the memory behind `val` and `val2`, the
world. -/
structure ReadRawResult where
  ret : Int
  val : Mem
  val2 : Mem
  world : World
  deriving DecidableEq, Repr

/-- The function `max11108_read_raw(indio_dev, chan, val, val2, info)`. `xfer` is what `spi_read`
returns if it is called, `vref_uv` what `regulator_get_voltage` returns if it is called. -/
def max11108_read_raw (K : Consts) (e : Endian) (xfer : SpiXfer) (vref_uv : Int)
    (val val2 : Mem) (info : Int) (w : World) : ReadRawResult :=
  let w := mutex_lock w
  let r : ReadRawResult :=
    if info = K.IIO_CHAN_INFO_RAW then
      let s := max11108_read_single K e xfer val w
      let ret := if s.ret = 0 then K.IIO_VAL_INT else s.ret
      { ret := ret, val := s.val, val2 := val2, world := s.world }
    else if info = K.IIO_CHAN_INFO_SCALE then
      let w := emit w .regulator_get_voltage
      if vref_uv < 0 then
        { ret := -K.EINVAL, val := val, val2 := val2, world := emit w .dev_err }
      else
        { ret := K.IIO_VAL_FRACTIONAL
          val := store_int e (vref_uv.tdiv 1000) val
          val2 := store_int e MAX11108_LSB_DIV val2
          world := w }
    else
      { ret := -K.EINVAL, val := val, val2 := val2, world := w }
  { r with world := mutex_unlock r.world }

/-- The function `max11108_trigger_handler(irq, private)`. `xfer` is what `spi_read`
returns, `now` what `iio_get_time_ns` returns if it is called. Every path returns the
constant `IRQ_HANDLED`, so only the effect on the world is kept. -/
def max11108_trigger_handler (K : Consts) (e : Endian) (xfer : SpiXfer) (now : Int)
    (w : World) : World :=
  let data : Mem := List.replicate 16 0
  let w := mutex_lock w
  let s := max11108_read_single K e xfer data w
  let w :=
    if s.ret < 0 then
      emit s.world .dev_err
    else
      emit s.world (.iio_push_to_buffers_with_timestamp s.val now)
  let w := mutex_unlock w
  emit w .iio_trigger_notify_done

/-- One trigger firing: what the bus and the clock hand back during it. -/
structure Firing where
  xfer : SpiXfer
  now : Int
  deriving DecidableEq, Repr

/-- The handler run once per firing, in order. -/
def run_firings (K : Consts) (e : Endian) (fs : List Firing) (w : World) : World :=
  fs.foldl (fun w f => max11108_trigger_handler K e f.xfer f.now w) w

/-! ## Observations on a trace -/

/-- Number of `iio_trigger_notify_done` calls in a trace. -/
def completions (t : List Event) : Nat :=
  t.count .iio_trigger_notify_done

/-- Whether a call is a push into the output buffer. -/
def is_push : Event → Bool
  | .iio_push_to_buffers_with_timestamp _ _ => true
  | _ => false

/-- Number of `iio_push_to_buffers_with_timestamp` calls in a trace. -/
def pushes (t : List Event) : Nat :=
  t.countP is_push

/-- The sample buffers handed to `iio_push_to_buffers_with_timestamp`, in order. -/
def pushed_data : List Event → List (List Nat)
  | [] => []
  | .iio_push_to_buffers_with_timestamp data _ :: t => data :: pushed_data t
  | _ :: t => pushed_data t

/-- The read of a firing fails when `max11108_read_single` takes one of its two error
returns: the transport status is nonzero, or the third byte is nonzero. -/
def read_failed (f : Firing) : Bool :=
  decide (f.xfer.status ≠ 0) || decide (f.xfer.b2 ≠ 0)

/-! ## Memory lemmas -/

theorem load_u32_store_u32 (e : Endian) (v : Nat) (m : Mem) :
    load_u32 e (store_u32 e v m) = v % 2 ^ 32 := by
  cases e <;> simp [load_u32, store_u32, u32_bytes] <;> omega

theorem load_int_store_u32 (e : Endian) (v : Nat) (m : Mem) (hv : v < 2 ^ 31) :
    load_int e (store_u32 e v m) = (v : Int) := by
  have hmod : v % 2 ^ 32 = v := Nat.mod_eq_of_lt (by omega)
  simp only [load_int, load_u32_store_u32, hmod]
  rw [if_pos hv]

theorem load_int_store_int (e : Endian) (x : Int) (m : Mem)
    (hlo : -2 ^ 31 ≤ x) (hhi : x < 2 ^ 31) :
    load_int e (store_int e x m) = x := by
  simp only [load_int, store_int, load_u32_store_u32]
  split <;> omega

theorem store_u32_drop (e : Endian) (v : Nat) (m : Mem) :
    (store_u32 e v m).drop 4 = m.drop 4 := by
  cases e <;> simp [store_u32, u32_bytes]

/-! ## Decoding lemmas -/

theorem decode_lt (b0 b1 : Nat) : ((b0 <<< 8 ||| b1) >>> 1) &&& 0xfff < 4096 :=
  Nat.and_lt_two_pow _ (show 0xfff < 2 ^ 12 by norm_num)

theorem decode_arith (b0 b1 : Nat) (h1 : b1 < 256) :
    ((b0 <<< 8 ||| b1) >>> 1) &&& 0xfff = (b0 * 256 + b1) / 2 % 4096 := by
  have hor : b0 <<< 8 ||| b1 = b0 * 256 + b1 := by
    rw [Nat.shiftLeft_eq, Nat.mul_comm b0 (2 ^ 8)]
    exact (Nat.mul_add_lt_is_or (show b1 < 2 ^ 8 by simpa using h1) b0).symm
  have hand : ∀ x : Nat, x &&& 0xfff = x % 4096 := fun x =>
    Nat.and_pow_two_sub_one_eq_mod x 12
  rw [hor, hand, Nat.shiftRight_eq_div_pow]

/-! ## `max11108_read_single` -/

/-- C1: when the bus transaction succeeds with the bytes `(b0, b1, 0)`,
`max11108_read_single` returns 0 and the location behind `val` then holds
`((b0 << 8 | b1) >> 1) & 0xFFF`, read as `u32` or as `int`, in either host byte order; the
bytes after that word are untouched; the bytes `(0x0F, 0xFE, 0x00)` decode to 2047. -/
theorem read_single_decodes (K : Consts) (e : Endian) (b0 b1 : Nat) (val : Mem) (w : World)
    (h0 : b0 < 256) (h1 : b1 < 256) :
    (max11108_read_single K e ⟨0, b0, b1, 0⟩ val w).ret = 0 ∧
    load_u32 e (max11108_read_single K e ⟨0, b0, b1, 0⟩ val w).val
      = ((b0 <<< 8 ||| b1) >>> 1) &&& 0xfff ∧
    load_int e (max11108_read_single K e ⟨0, b0, b1, 0⟩ val w).val
      = ((((b0 <<< 8 ||| b1) >>> 1) &&& 0xfff : Nat) : Int) ∧
    ((b0 <<< 8 ||| b1) >>> 1) &&& 0xfff = (b0 * 256 + b1) / 2 % 4096 ∧
    (max11108_read_single K e ⟨0, b0, b1, 0⟩ val w).val.drop 4 = val.drop 4 ∧
    load_int e (max11108_read_single K e ⟨0, 0x0F, 0xFE, 0x00⟩ val w).val = 2047 := by
  have hlt := decode_lt b0 b1
  have hb0 : b0 * 256 < 65536 := by omega
  refine ⟨by simp [max11108_read_single], ?_, ?_, decode_arith b0 b1 h1, ?_, ?_⟩
  · simp only [max11108_read_single, ne_eq, not_true_eq_false, if_false, load_u32_store_u32]
    exact Nat.mod_eq_of_lt (by omega)
  · simp only [max11108_read_single, ne_eq, not_true_eq_false, if_false]
    exact load_int_store_u32 e _ val (by omega)
  · simp only [max11108_read_single, ne_eq, not_true_eq_false, if_false, store_u32_drop]
  · simp only [max11108_read_single, ne_eq, not_true_eq_false, if_false]
    rw [load_int_store_u32 e _ val (by decide)]
    decide

/-- Witness for C1 at the bytes `(0x0F, 0xFE, 0x00)` on a little-endian host. -/
theorem read_single_decodes_witness :
    (max11108_read_single linuxConsts .little ⟨0, 0x0F, 0xFE, 0⟩ [0, 0, 0, 0] ⟨false, []⟩).ret = 0 ∧
    load_int .little
      (max11108_read_single linuxConsts .little ⟨0, 0x0F, 0xFE, 0⟩ [0, 0, 0, 0] ⟨false, []⟩).val
      = 2047 :=
  have h := read_single_decodes linuxConsts .little 0x0F 0xFE [0, 0, 0, 0] ⟨false, []⟩
    (by decide) (by decide)
  ⟨h.1, h.2.2.2.2.2⟩

/-- C2: when the bus transaction succeeds but the third byte is nonzero,
`max11108_read_single` returns `-EINVAL` and the location behind `val` is exactly what it
was before the call. -/
theorem read_single_framing_error (K : Consts) (e : Endian) (b0 b1 b2 : Nat) (val : Mem)
    (w : World) (h2 : b2 ≠ 0) :
    (max11108_read_single K e ⟨0, b0, b1, b2⟩ val w).ret = -K.EINVAL ∧
    (max11108_read_single K e ⟨0, b0, b1, b2⟩ val w).val = val := by
  simp [max11108_read_single, h2]

/-- Witness for C2 at the bytes `(0x0F, 0xFE, 0x01)`. -/
theorem read_single_framing_error_witness :
    (1 : Nat) ≠ 0 ∧
    (max11108_read_single linuxConsts .little ⟨0, 0x0F, 0xFE, 1⟩ [9, 9, 9, 9] ⟨false, []⟩).ret
      = -22 ∧
    (max11108_read_single linuxConsts .little ⟨0, 0x0F, 0xFE, 1⟩ [9, 9, 9, 9] ⟨false, []⟩).val
      = [9, 9, 9, 9] :=
  ⟨by decide,
   read_single_framing_error linuxConsts .little 0x0F 0xFE 1 [9, 9, 9, 9] ⟨false, []⟩
     (by decide)⟩

/-- C7: when the bus transaction fails with the nonzero status `st`,
`max11108_read_single` returns exactly `st` and leaves the location behind `val` as it was,
and a RAW query through `max11108_read_raw` returns that same `st`, writing neither
output. -/
theorem transport_error_propagates (K : Consts) (e : Endian) (st : Int) (b0 b1 b2 : Nat)
    (vref_uv : Int) (val val2 : Mem) (w : World) (hst : st ≠ 0) :
    (max11108_read_single K e ⟨st, b0, b1, b2⟩ val w).ret = st ∧
    (max11108_read_single K e ⟨st, b0, b1, b2⟩ val w).val = val ∧
    (max11108_read_raw K e ⟨st, b0, b1, b2⟩ vref_uv val val2 K.IIO_CHAN_INFO_RAW w).ret = st ∧
    (max11108_read_raw K e ⟨st, b0, b1, b2⟩ vref_uv val val2 K.IIO_CHAN_INFO_RAW w).val = val ∧
    (max11108_read_raw K e ⟨st, b0, b1, b2⟩ vref_uv val val2 K.IIO_CHAN_INFO_RAW w).val2
      = val2 := by
  simp [max11108_read_raw, max11108_read_single, hst]

/-- Witness for C7 at the status `-5` (`-EIO`). -/
theorem transport_error_propagates_witness :
    (-5 : Int) ≠ 0 ∧
    (max11108_read_single linuxConsts .little ⟨-5, 1, 2, 3⟩ [9, 9, 9, 9] ⟨false, []⟩).ret = -5 ∧
    (max11108_read_raw linuxConsts .little ⟨-5, 1, 2, 3⟩ 3300000 [9, 9, 9, 9] [8, 8, 8, 8] 0
      ⟨false, []⟩).ret = -5 :=
  have h := transport_error_propagates linuxConsts .little (-5) 1 2 3 3300000 [9, 9, 9, 9]
    [8, 8, 8, 8] ⟨false, []⟩ (by decide)
  ⟨by decide, h.1, h.2.2.1⟩

/-! ## `max11108_read_raw` -/

theorem lsb_div_eq : MAX11108_LSB_DIV = 4096 := by decide

/-- What a SCALE query leaves behind `val` and `val2` for a reference voltage `v_uv ≥ 0`. -/
theorem read_raw_scale_ok (K : Consts) (e : Endian) (xfer : SpiXfer) (v_uv : Int)
    (val val2 : Mem) (w : World) (hne : K.IIO_CHAN_INFO_RAW ≠ K.IIO_CHAN_INFO_SCALE)
    (h0 : 0 ≤ v_uv) (hmax : v_uv < 2 ^ 31) :
    (max11108_read_raw K e xfer v_uv val val2 K.IIO_CHAN_INFO_SCALE w).ret
      = K.IIO_VAL_FRACTIONAL ∧
    load_int e (max11108_read_raw K e xfer v_uv val val2 K.IIO_CHAN_INFO_SCALE w).val
      = v_uv / 1000 ∧
    load_int e (max11108_read_raw K e xfer v_uv val val2 K.IIO_CHAN_INFO_SCALE w).val2
      = 4096 := by
  have hne' : ¬ K.IIO_CHAN_INFO_SCALE = K.IIO_CHAN_INFO_RAW := fun h => hne h.symm
  have hneg : ¬ v_uv < 0 := by omega
  have hdiv : v_uv.tdiv 1000 = v_uv / 1000 := Int.tdiv_eq_ediv h0 (by norm_num)
  refine ⟨?_, ?_, ?_⟩
  · simp [max11108_read_raw, hne', hneg]
  · simp only [max11108_read_raw, hne', hneg, if_false, if_true, hdiv]
    exact load_int_store_int e _ val (by omega) (by omega)
  · simp only [max11108_read_raw, hne', hneg, if_false, if_true]
    rw [load_int_store_int e _ val2 (by rw [lsb_div_eq]; norm_num)
      (by rw [lsb_div_eq]; norm_num), lsb_div_eq]

/-- C4: for a reference voltage `v_uv ≥ 0` (an `int`), a SCALE query returns
`IIO_VAL_FRACTIONAL`, with `v_uv / 1000` behind `val` and 4096 behind `val2`; for
3 300 000 µV the pair is `(3300, 4096)`. -/
theorem scale_query (K : Consts) (e : Endian) (xfer : SpiXfer) (v_uv : Int) (val val2 : Mem)
    (w : World) (hne : K.IIO_CHAN_INFO_RAW ≠ K.IIO_CHAN_INFO_SCALE)
    (h0 : 0 ≤ v_uv) (hmax : v_uv < 2 ^ 31) :
    (max11108_read_raw K e xfer v_uv val val2 K.IIO_CHAN_INFO_SCALE w).ret
      = K.IIO_VAL_FRACTIONAL ∧
    load_int e (max11108_read_raw K e xfer v_uv val val2 K.IIO_CHAN_INFO_SCALE w).val
      = v_uv / 1000 ∧
    load_int e (max11108_read_raw K e xfer v_uv val val2 K.IIO_CHAN_INFO_SCALE w).val2
      = 4096 ∧
    load_int e (max11108_read_raw K e xfer 3300000 val val2 K.IIO_CHAN_INFO_SCALE w).val
      = 3300 ∧
    load_int e (max11108_read_raw K e xfer 3300000 val val2 K.IIO_CHAN_INFO_SCALE w).val2
      = 4096 := by
  have h := read_raw_scale_ok K e xfer v_uv val val2 w hne h0 hmax
  have h33 := read_raw_scale_ok K e xfer 3300000 val val2 w hne (by norm_num) (by norm_num)
  refine ⟨h.1, h.2.1, h.2.2, ?_, h33.2.2⟩
  rw [h33.2.1]
  decide

/-- Witness for C4 at 3 300 000 µV on a big-endian host. -/
theorem scale_query_witness :
    (max11108_read_raw linuxConsts .big ⟨0, 0, 0, 0⟩ 3300000 [0, 0, 0, 0] [0, 0, 0, 0] 2
      ⟨false, []⟩).ret = 10 ∧
    load_int .big (max11108_read_raw linuxConsts .big ⟨0, 0, 0, 0⟩ 3300000 [0, 0, 0, 0]
      [0, 0, 0, 0] 2 ⟨false, []⟩).val = 3300 ∧
    load_int .big (max11108_read_raw linuxConsts .big ⟨0, 0, 0, 0⟩ 3300000 [0, 0, 0, 0]
      [0, 0, 0, 0] 2 ⟨false, []⟩).val2 = 4096 :=
  have h := scale_query linuxConsts .big ⟨0, 0, 0, 0⟩ 3300000 [0, 0, 0, 0] [0, 0, 0, 0]
    ⟨false, []⟩ (by decide) (by decide) (by decide)
  ⟨h.1, h.2.2.2.1, h.2.2.2.2⟩

/-- C5: for a negative reference voltage, a SCALE query returns `-EINVAL` and writes
neither `val` nor `val2`. -/
theorem scale_query_negative (K : Consts) (e : Endian) (xfer : SpiXfer) (v_uv : Int)
    (val val2 : Mem) (w : World) (hne : K.IIO_CHAN_INFO_RAW ≠ K.IIO_CHAN_INFO_SCALE)
    (hneg : v_uv < 0) :
    (max11108_read_raw K e xfer v_uv val val2 K.IIO_CHAN_INFO_SCALE w).ret = -K.EINVAL ∧
    (max11108_read_raw K e xfer v_uv val val2 K.IIO_CHAN_INFO_SCALE w).val = val ∧
    (max11108_read_raw K e xfer v_uv val val2 K.IIO_CHAN_INFO_SCALE w).val2 = val2 := by
  have hne' : ¬ K.IIO_CHAN_INFO_SCALE = K.IIO_CHAN_INFO_RAW := fun h => hne h.symm
  simp [max11108_read_raw, hne', hneg]

/-- Witness for C5 at the reference reading `-22`. -/
theorem scale_query_negative_witness :
    (-22 : Int) < 0 ∧
    (max11108_read_raw linuxConsts .little ⟨0, 0, 0, 0⟩ (-22) [9, 9, 9, 9] [8, 8, 8, 8] 2
      ⟨false, []⟩).ret = -22 ∧
    (max11108_read_raw linuxConsts .little ⟨0, 0, 0, 0⟩ (-22) [9, 9, 9, 9] [8, 8, 8, 8] 2
      ⟨false, []⟩).val = [9, 9, 9, 9] ∧
    (max11108_read_raw linuxConsts .little ⟨0, 0, 0, 0⟩ (-22) [9, 9, 9, 9] [8, 8, 8, 8] 2
      ⟨false, []⟩).val2 = [8, 8, 8, 8] :=
  ⟨by decide,
   scale_query_negative linuxConsts .little ⟨0, 0, 0, 0⟩ (-22) [9, 9, 9, 9] [8, 8, 8, 8]
     ⟨false, []⟩ (by decide) (by decide)⟩

/-- Trace and lock effect of `max11108_read_single`: it appends `spi_read`, possibly
followed by `dev_err`, and does not touch the mutex. -/
theorem read_single_world (K : Consts) (e : Endian) (xfer : SpiXfer) (val : Mem) (w : World) :
    (max11108_read_single K e xfer val w).world.lock = w.lock ∧
    ((max11108_read_single K e xfer val w).world.trace = w.trace ++ [.spi_read] ∨
     (max11108_read_single K e xfer val w).world.trace = w.trace ++ [.spi_read, .dev_err]) := by
  unfold max11108_read_single
  by_cases hs : xfer.status = 0
  · by_cases hb : xfer.b2 = 0 <;> simp [hs, hb, emit]
  · simp [hs, emit]

/-- C6: any `info` other than RAW and SCALE makes `max11108_read_raw` return `-EINVAL`
with nothing but the lock and unlock calls made (no `spi_read`, no
`regulator_get_voltage`) and neither output written; RAW runs `max11108_read_single`
under the lock and turns its 0 into `IIO_VAL_INT`; SCALE queries the regulator, makes no
bus transaction, and returns `IIO_VAL_FRACTIONAL` when the voltage is not negative. -/
theorem read_raw_dispatch (K : Consts) (e : Endian) (xfer : SpiXfer) (v_uv : Int)
    (val val2 : Mem) (info : Int) (w : World)
    (hne : K.IIO_CHAN_INFO_RAW ≠ K.IIO_CHAN_INFO_SCALE) :
    (info ≠ K.IIO_CHAN_INFO_RAW → info ≠ K.IIO_CHAN_INFO_SCALE →
      (max11108_read_raw K e xfer v_uv val val2 info w).ret = -K.EINVAL ∧
      (max11108_read_raw K e xfer v_uv val val2 info w).val = val ∧
      (max11108_read_raw K e xfer v_uv val val2 info w).val2 = val2 ∧
      (max11108_read_raw K e xfer v_uv val val2 info w).world.trace
        = w.trace ++ [.mutex_lock, .mutex_unlock]) ∧
    ((max11108_read_raw K e xfer v_uv val val2 K.IIO_CHAN_INFO_RAW w).ret
        = (if (max11108_read_single K e xfer val (mutex_lock w)).ret = 0 then K.IIO_VAL_INT
           else (max11108_read_single K e xfer val (mutex_lock w)).ret) ∧
      (max11108_read_raw K e xfer v_uv val val2 K.IIO_CHAN_INFO_RAW w).val
        = (max11108_read_single K e xfer val (mutex_lock w)).val ∧
      (max11108_read_raw K e xfer v_uv val val2 K.IIO_CHAN_INFO_RAW w).val2 = val2 ∧
      (max11108_read_raw K e xfer v_uv val val2 K.IIO_CHAN_INFO_RAW w).world
        = mutex_unlock (max11108_read_single K e xfer val (mutex_lock w)).world ∧
      (∃ mid : List Event,
        (max11108_read_raw K e xfer v_uv val val2 K.IIO_CHAN_INFO_RAW w).world.trace
          = w.trace ++ mid ∧ Event.regulator_get_voltage ∉ mid)) ∧
    (xfer.status = 0 → xfer.b2 = 0 →
      (max11108_read_raw K e xfer v_uv val val2 K.IIO_CHAN_INFO_RAW w).ret = K.IIO_VAL_INT) ∧
    (0 ≤ v_uv →
      (max11108_read_raw K e xfer v_uv val val2 K.IIO_CHAN_INFO_SCALE w).ret
        = K.IIO_VAL_FRACTIONAL ∧
      (max11108_read_raw K e xfer v_uv val val2 K.IIO_CHAN_INFO_SCALE w).val
        = store_int e (v_uv.tdiv 1000) val ∧
      (max11108_read_raw K e xfer v_uv val val2 K.IIO_CHAN_INFO_SCALE w).val2
        = store_int e MAX11108_LSB_DIV val2 ∧
      (max11108_read_raw K e xfer v_uv val val2 K.IIO_CHAN_INFO_SCALE w).world.trace
        = w.trace ++ [.mutex_lock, .regulator_get_voltage, .mutex_unlock]) := by
  have hne' : ¬ K.IIO_CHAN_INFO_SCALE = K.IIO_CHAN_INFO_RAW := fun h => hne h.symm
  refine ⟨?_, ⟨?_, ?_, ?_, ?_, ?_⟩, ?_, ?_⟩
  · intro h1 h2
    simp [max11108_read_raw, h1, h2, mutex_lock, mutex_unlock, emit]
  · simp [max11108_read_raw]
  · simp [max11108_read_raw]
  · simp [max11108_read_raw]
  · simp [max11108_read_raw]
  · by_cases hs : xfer.status = 0
    · by_cases hb : xfer.b2 = 0
      · exact ⟨[.mutex_lock, .spi_read, .mutex_unlock],
          by simp [max11108_read_raw, max11108_read_single, hs, hb, mutex_lock, mutex_unlock,
            emit], by simp⟩
      · exact ⟨[.mutex_lock, .spi_read, .dev_err, .mutex_unlock],
          by simp [max11108_read_raw, max11108_read_single, hs, hb, mutex_lock, mutex_unlock,
            emit], by simp⟩
    · exact ⟨[.mutex_lock, .spi_read, .dev_err, .mutex_unlock],
        by simp [max11108_read_raw, max11108_read_single, hs, mutex_lock, mutex_unlock,
          emit], by simp⟩
  · intro hs hb
    simp [max11108_read_raw, max11108_read_single, hs, hb]
  · intro h0
    have hneg : ¬ v_uv < 0 := by omega
    simp [max11108_read_raw, hne', hneg, mutex_lock, mutex_unlock, emit]

/-- Witness for C6: `info = 5` is neither RAW (0) nor SCALE (2) with the Linux values. -/
theorem read_raw_dispatch_witness :
    (max11108_read_raw linuxConsts .little ⟨0, 0x0F, 0xFE, 0⟩ 3300000 [9, 9, 9, 9] [8, 8, 8, 8]
      5 ⟨false, []⟩).ret = -22 ∧
    (max11108_read_raw linuxConsts .little ⟨0, 0x0F, 0xFE, 0⟩ 3300000 [9, 9, 9, 9] [8, 8, 8, 8]
      5 ⟨false, []⟩).world.trace = [.mutex_lock, .mutex_unlock] ∧
    (max11108_read_raw linuxConsts .little ⟨0, 0x0F, 0xFE, 0⟩ 3300000 [9, 9, 9, 9] [8, 8, 8, 8]
      0 ⟨false, []⟩).ret = 1 ∧
    (max11108_read_raw linuxConsts .little ⟨0, 0x0F, 0xFE, 0⟩ 3300000 [9, 9, 9, 9] [8, 8, 8, 8]
      2 ⟨false, []⟩).ret = 10 :=
  have h := read_raw_dispatch linuxConsts .little ⟨0, 0x0F, 0xFE, 0⟩ 3300000 [9, 9, 9, 9]
    [8, 8, 8, 8] 5 ⟨false, []⟩ (by decide)
  ⟨(h.1 (by decide) (by decide)).1, (h.1 (by decide) (by decide)).2.2.2,
   h.2.2.1 rfl rfl, (h.2.2.2 (by decide)).1⟩

/-- C8: every call of `max11108_read_raw` and every run of `max11108_trigger_handler`
takes the device mutex first and releases it exactly once: the calls it adds to the trace
are `mutex_lock`, then calls that are neither lock nor unlock, then `mutex_unlock`
(followed, in the handler, only by `iio_trigger_notify_done`), and the mutex is free when
the function returns. -/
theorem lock_released (K : Consts) (e : Endian) (xfer : SpiXfer) (v_uv : Int)
    (val val2 : Mem) (info : Int) (now : Int) (w : World) :
    (max11108_read_raw K e xfer v_uv val val2 info w).world.lock = false ∧
    (∃ mid : List Event,
      (max11108_read_raw K e xfer v_uv val val2 info w).world.trace
        = w.trace ++ [.mutex_lock] ++ mid ++ [.mutex_unlock] ∧
      Event.mutex_lock ∉ mid ∧ Event.mutex_unlock ∉ mid) ∧
    (max11108_trigger_handler K e xfer now w).lock = false ∧
    (∃ mid : List Event,
      (max11108_trigger_handler K e xfer now w).trace
        = w.trace ++ [.mutex_lock] ++ mid ++ [.mutex_unlock, .iio_trigger_notify_done] ∧
      Event.mutex_lock ∉ mid ∧ Event.mutex_unlock ∉ mid) := by
  refine ⟨?_, ?_, ?_, ?_⟩
  · simp [max11108_read_raw, mutex_unlock, emit]
  · by_cases hr : info = K.IIO_CHAN_INFO_RAW
    · by_cases hs : xfer.status = 0
      · by_cases hb : xfer.b2 = 0
        · exact ⟨[.spi_read],
            by simp [max11108_read_raw, max11108_read_single, hr, hs, hb, mutex_lock,
              mutex_unlock, emit], by simp, by simp⟩
        · exact ⟨[.spi_read, .dev_err],
            by simp [max11108_read_raw, max11108_read_single, hr, hs, hb, mutex_lock,
              mutex_unlock, emit], by simp, by simp⟩
      · exact ⟨[.spi_read, .dev_err],
          by simp [max11108_read_raw, max11108_read_single, hr, hs, mutex_lock,
            mutex_unlock, emit], by simp, by simp⟩
    · by_cases hsc : info = K.IIO_CHAN_INFO_SCALE
      · subst hsc
        by_cases hv : v_uv < 0
        · exact ⟨[.regulator_get_voltage, .dev_err],
            by simp [max11108_read_raw, hr, hv, mutex_lock, mutex_unlock, emit],
            by simp, by simp⟩
        · exact ⟨[.regulator_get_voltage],
            by simp [max11108_read_raw, hr, hv, mutex_lock, mutex_unlock, emit],
            by simp, by simp⟩
      · exact ⟨[], by simp [max11108_read_raw, hr, hsc, mutex_lock, mutex_unlock, emit],
          by simp, by simp⟩
  · simp [max11108_trigger_handler, mutex_unlock, emit]
  · by_cases hs : xfer.status = 0
    · by_cases hb : xfer.b2 = 0
      · exact ⟨[.spi_read, .iio_push_to_buffers_with_timestamp
            (store_u32 e (((xfer.b0 <<< 8 ||| xfer.b1) >>> 1) &&& 0xfff) (List.replicate 16 0))
            now],
          by simp [max11108_trigger_handler, max11108_read_single, hs, hb, mutex_lock,
            mutex_unlock, emit], by simp, by simp⟩
      · by_cases hneg : -K.EINVAL < 0
        · exact ⟨[.spi_read, .dev_err, .dev_err],
            by simp [max11108_trigger_handler, max11108_read_single, hs, hb, hneg, mutex_lock,
              mutex_unlock, emit], by simp, by simp⟩
        · exact ⟨[.spi_read, .dev_err,
              .iio_push_to_buffers_with_timestamp (List.replicate 16 0) now],
            by simp [max11108_trigger_handler, max11108_read_single, hs, hb, hneg, mutex_lock,
              mutex_unlock, emit], by simp, by simp⟩
    · by_cases hneg : xfer.status < 0
      · exact ⟨[.spi_read, .dev_err, .dev_err],
          by simp [max11108_trigger_handler, max11108_read_single, hs, hneg, mutex_lock,
            mutex_unlock, emit], by simp, by simp⟩
      · exact ⟨[.spi_read, .dev_err,
            .iio_push_to_buffers_with_timestamp (List.replicate 16 0) now],
          by simp [max11108_trigger_handler, max11108_read_single, hs, hneg, mutex_lock,
            mutex_unlock, emit], by simp, by simp⟩

/-- C9: for a raw code in `[0, 4095]` and a reference voltage `v_uv ≥ 0`, with
`(numerator, denominator)` what the SCALE query stores, `raw * numerator / denominator`
never exceeds `(raw * v_uv / 1000) / 4096` and is smaller by at most 1; for `raw = 2047`
and 3 300 000 µV it is 1649. -/
theorem scale_rounding (K : Consts) (e : Endian) (xfer : SpiXfer) (v_uv raw : Int)
    (val val2 : Mem) (w : World) (hne : K.IIO_CHAN_INFO_RAW ≠ K.IIO_CHAN_INFO_SCALE)
    (h0 : 0 ≤ v_uv) (hmax : v_uv < 2 ^ 31) (hr0 : 0 ≤ raw) (hr : raw ≤ 4095) :
    raw * load_int e (max11108_read_raw K e xfer v_uv val val2 K.IIO_CHAN_INFO_SCALE w).val
        / load_int e (max11108_read_raw K e xfer v_uv val val2 K.IIO_CHAN_INFO_SCALE w).val2
      ≤ raw * v_uv / 1000 / 4096 ∧
    raw * v_uv / 1000 / 4096
      ≤ raw * load_int e (max11108_read_raw K e xfer v_uv val val2 K.IIO_CHAN_INFO_SCALE w).val
        / load_int e (max11108_read_raw K e xfer v_uv val val2 K.IIO_CHAN_INFO_SCALE w).val2
        + 1 ∧
    2047 * load_int e (max11108_read_raw K e xfer 3300000 val val2 K.IIO_CHAN_INFO_SCALE w).val
        / load_int e (max11108_read_raw K e xfer 3300000 val val2 K.IIO_CHAN_INFO_SCALE w).val2
      = 1649 := by
  have h := read_raw_scale_ok K e xfer v_uv val val2 w hne h0 hmax
  have h33 := read_raw_scale_ok K e xfer 3300000 val val2 w hne (by norm_num) (by norm_num)
  rw [h.2.1, h.2.2, h33.2.1, h33.2.2]
  have hv : v_uv = 1000 * (v_uv / 1000) + v_uv % 1000 := (Int.ediv_add_emod v_uv 1000).symm
  have hrem0 : 0 ≤ v_uv % 1000 := Int.emod_nonneg _ (by norm_num)
  have hrem1 : v_uv % 1000 < 1000 := Int.emod_lt_of_pos _ (by norm_num)
  generalize v_uv / 1000 = q at hv ⊢
  generalize v_uv % 1000 = r at hv hrem0 hrem1
  have hmul : raw * v_uv = 1000 * (raw * q) + raw * r := by rw [hv]; ring
  have hp0 : 0 ≤ raw * r := mul_nonneg hr0 hrem0
  have hp1 : raw * r ≤ 4095 * 999 := mul_le_mul hr (by omega) hrem0 (by norm_num)
  rw [hmul]
  generalize raw * q = a
  generalize raw * r = p at hp0 hp1
  refine ⟨by omega, by omega, by decide⟩

/-- Witness for C9 at `raw = 2047` and 3 300 000 µV. -/
theorem scale_rounding_witness :
    2047 * load_int .little (max11108_read_raw linuxConsts .little ⟨0, 0, 0, 0⟩ 3300000
        [0, 0, 0, 0] [0, 0, 0, 0] 2 ⟨false, []⟩).val
      / load_int .little (max11108_read_raw linuxConsts .little ⟨0, 0, 0, 0⟩ 3300000
        [0, 0, 0, 0] [0, 0, 0, 0] 2 ⟨false, []⟩).val2 = 1649 :=
  (scale_rounding linuxConsts .little ⟨0, 0, 0, 0⟩ 3300000 2047 [0, 0, 0, 0] [0, 0, 0, 0]
    ⟨false, []⟩ (by decide) (by decide) (by decide) (by decide) (by decide)).2.2

/-! ## `max11108_trigger_handler` -/

theorem completions_append (t u : List Event) :
    completions (t ++ u) = completions t + completions u := by
  simp [completions, List.count_append]

theorem pushes_append (t u : List Event) : pushes (t ++ u) = pushes t + pushes u := by
  simp [pushes, List.countP_append]

theorem pushed_data_append (t u : List Event) :
    pushed_data (t ++ u) = pushed_data t ++ pushed_data u := by
  induction t with
  | nil => rfl
  | cons ev t ih => cases ev <;> simp [pushed_data, ih]

/-- The calls one run of the handler adds to the trace, by outcome of the read. -/
theorem trigger_handler_trace (K : Consts) (e : Endian) (xfer : SpiXfer) (now : Int)
    (w : World) :
    (max11108_trigger_handler K e xfer now w).trace = w.trace ++
      (if xfer.status ≠ 0 then
        (if xfer.status < 0 then
          [.mutex_lock, .spi_read, .dev_err, .dev_err, .mutex_unlock, .iio_trigger_notify_done]
        else
          [.mutex_lock, .spi_read, .dev_err,
            .iio_push_to_buffers_with_timestamp (List.replicate 16 0) now,
            .mutex_unlock, .iio_trigger_notify_done])
      else if xfer.b2 ≠ 0 then
        (if -K.EINVAL < 0 then
          [.mutex_lock, .spi_read, .dev_err, .dev_err, .mutex_unlock, .iio_trigger_notify_done]
        else
          [.mutex_lock, .spi_read, .dev_err,
            .iio_push_to_buffers_with_timestamp (List.replicate 16 0) now,
            .mutex_unlock, .iio_trigger_notify_done])
      else
        [.mutex_lock, .spi_read,
          .iio_push_to_buffers_with_timestamp
            (store_u32 e (((xfer.b0 <<< 8 ||| xfer.b1) >>> 1) &&& 0xfff) (List.replicate 16 0))
            now,
          .mutex_unlock, .iio_trigger_notify_done]) := by
  by_cases hs : xfer.status = 0
  · by_cases hb : xfer.b2 = 0
    · simp [max11108_trigger_handler, max11108_read_single, hs, hb, mutex_lock, mutex_unlock,
        emit]
    · by_cases hneg : -K.EINVAL < 0 <;>
        simp [max11108_trigger_handler, max11108_read_single, hs, hb, hneg, mutex_lock,
          mutex_unlock, emit]
  · by_cases hneg : xfer.status < 0 <;>
      simp [max11108_trigger_handler, max11108_read_single, hs, hneg, mutex_lock,
        mutex_unlock, emit]

/-- Every run of the handler signals completion exactly once, whatever the read did. -/
theorem trigger_handler_completions (K : Consts) (e : Endian) (xfer : SpiXfer) (now : Int)
    (w : World) :
    completions (max11108_trigger_handler K e xfer now w).trace = completions w.trace + 1 := by
  rw [trigger_handler_trace, completions_append]
  congr 1
  by_cases hs : xfer.status ≠ 0
  · by_cases hneg : xfer.status < 0 <;> simp [hs, hneg, completions]
  · by_cases hb : xfer.b2 ≠ 0
    · by_cases hneg : -K.EINVAL < 0 <;> simp [hs, hb, hneg, completions]
    · simp [hs, hb, completions]

/-- A run of the handler pushes exactly when the value `max11108_read_single` returned is
not negative. -/
theorem trigger_handler_pushes (K : Consts) (e : Endian) (xfer : SpiXfer) (now : Int)
    (w : World) :
    pushes (max11108_trigger_handler K e xfer now w).trace = pushes w.trace +
      (if (max11108_read_single K e xfer (List.replicate 16 0) (mutex_lock w)).ret < 0 then 0
       else 1) := by
  rw [trigger_handler_trace, pushes_append]
  congr 1
  by_cases hs : xfer.status = 0
  · by_cases hb : xfer.b2 = 0
    · simp [max11108_read_single, hs, hb, pushes, is_push]
    · by_cases hneg : -K.EINVAL < 0 <;>
        simp [max11108_read_single, hs, hb, hneg, pushes, is_push]
  · by_cases hneg : xfer.status < 0 <;>
      simp [max11108_read_single, hs, hneg, pushes, is_push]

/-- Any `N` firings give exactly `N` completion signals. -/
theorem run_firings_completions (K : Consts) (e : Endian) (fs : List Firing) (w : World) :
    completions (run_firings K e fs w).trace = completions w.trace + fs.length := by
  induction fs generalizing w with
  | nil => simp [run_firings]
  | cons f fs ih =>
    have hstep : run_firings K e (f :: fs) w
        = run_firings K e fs (max11108_trigger_handler K e f.xfer f.now w) := rfl
    rw [hstep, ih, trigger_handler_completions, List.length_cons]
    omega

/-- When every transport status is zero or negative (and `EINVAL` is positive), `N`
firings give `N` minus the number of failed reads pushes. -/
theorem run_firings_pushes_of_nonpos (K : Consts) (e : Endian) (fs : List Firing) (w : World)
    (hK : 0 < K.EINVAL) (hfs : ∀ f ∈ fs, f.xfer.status ≤ 0) :
    pushes (run_firings K e fs w).trace + fs.countP read_failed
      = pushes w.trace + fs.length := by
  induction fs generalizing w with
  | nil => simp [run_firings]
  | cons f fs ih =>
    have hstep : run_firings K e (f :: fs) w
        = run_firings K e fs (max11108_trigger_handler K e f.xfer f.now w) := rfl
    have hf : f.xfer.status ≤ 0 := hfs f (List.mem_cons_self _ _)
    have ih' := ih (max11108_trigger_handler K e f.xfer f.now w)
      (fun g hg => hfs g (List.mem_cons_of_mem _ hg))
    have hone : pushes (max11108_trigger_handler K e f.xfer f.now w).trace
        + (if read_failed f = true then 1 else 0) = pushes w.trace + 1 := by
      rw [trigger_handler_pushes]
      by_cases hs : f.xfer.status = 0
      · by_cases hb : f.xfer.b2 = 0
        · simp [max11108_read_single, read_failed, hs, hb]
        · simp [max11108_read_single, read_failed, hs, hb, hK]
      · have hneg : f.xfer.status < 0 := lt_of_le_of_ne hf hs
        simp [max11108_read_single, read_failed, hs, hneg]
    rw [hstep, List.countP_cons, List.length_cons]
    omega

/-- On a little-endian host a successful firing pushes the decoded code in the 16-bit
little-endian layout: byte 0 is `c & 0xFF`, byte 1 is `c >> 8`, every other byte is 0. -/
theorem trigger_handler_little_endian_layout (K : Consts) (b0 b1 : Nat) (now : Int)
    (w : World) :
    pushed_data (max11108_trigger_handler K .little ⟨0, b0, b1, 0⟩ now w).trace
      = pushed_data w.trace ++
        [[(((b0 <<< 8 ||| b1) >>> 1) &&& 0xfff) &&& 0xff,
          (((b0 <<< 8 ||| b1) >>> 1) &&& 0xfff) >>> 8,
          0, 0, 0, 0, 0, 0, 0, 0, 0, 0, 0, 0, 0, 0]] := by
  have hlt := decode_lt b0 b1
  rw [trigger_handler_trace, pushed_data_append]
  generalize ((b0 <<< 8 ||| b1) >>> 1) &&& 0xfff = c at hlt ⊢
  have hlow : c &&& 0xff = c % 256 := Nat.and_pow_two_sub_one_eq_mod c 8
  have hhigh : c >>> 8 = c / 256 := Nat.shiftRight_eq_div_pow c 8
  have hmod : c % 4294967296 = c := Nat.mod_eq_of_lt (by omega)
  have h1 : c / 256 % 256 = c / 256 := Nat.mod_eq_of_lt (by omega)
  have h2 : c / 65536 = 0 := Nat.div_eq_of_lt (by omega)
  have h3 : c / 16777216 = 0 := Nat.div_eq_of_lt (by omega)
  simp [pushed_data, store_u32, u32_bytes, hlow, hhigh, hmod, h1, h2, h3]

/-- Under a positive `EINVAL`, the read of a firing fails, in the sense of `read_failed`,
exactly when `max11108_read_single` returns a nonzero value. -/
theorem read_failed_iff (K : Consts) (e : Endian) (f : Firing) (val : Mem) (w : World)
    (hK : 0 < K.EINVAL) :
    read_failed f = true ↔ (max11108_read_single K e f.xfer val w).ret ≠ 0 := by
  have hne : K.EINVAL ≠ 0 := ne_of_gt hK
  by_cases hs : f.xfer.status = 0
  · by_cases hb : f.xfer.b2 = 0
    · simp [max11108_read_single, read_failed, hs, hb]
    · simp [max11108_read_single, read_failed, hs, hb, hne]
  · simp [max11108_read_single, read_failed, hs]

/-- One firing whose transport status is zero or negative pushes once if its read
succeeded and not at all if it failed. -/
theorem trigger_handler_pushes_of_nonpos (K : Consts) (e : Endian) (f : Firing) (w : World)
    (hK : 0 < K.EINVAL) (hf : f.xfer.status ≤ 0) :
    pushes (max11108_trigger_handler K e f.xfer f.now w).trace
      = pushes w.trace + (if read_failed f = true then 0 else 1) := by
  rw [trigger_handler_pushes]
  by_cases hs : f.xfer.status = 0
  · by_cases hb : f.xfer.b2 = 0
    · simp [max11108_read_single, read_failed, hs, hb]
    · simp [max11108_read_single, read_failed, hs, hb, hK]
  · have hneg : f.xfer.status < 0 := lt_of_le_of_ne hf hs
    simp [max11108_read_single, read_failed, hs, hneg]

/-- C3: for every sequence of `N` firings whose bus transactions return what `spi_read`
can return (status 0 with any three bytes, or a negative error status), the handler
signals completion exactly `N` times, once per firing, and pushes exactly `N` minus the
number of failed reads times: a firing pushes once if its read succeeded and not at all
if it failed, where a read fails exactly when `max11108_read_single` returns nonzero
(transport error or nonzero third byte). -/
theorem capture_liveness (K : Consts) (e : Endian) (fs : List Firing) (w : World)
    (hK : 0 < K.EINVAL) (hfs : ∀ f ∈ fs, f.xfer.status ≤ 0) :
    completions (run_firings K e fs w).trace = completions w.trace + fs.length ∧
    pushes (run_firings K e fs w).trace
      = pushes w.trace + (fs.length - fs.countP read_failed) ∧
    (∀ f ∈ fs, ∀ u : World,
      completions (max11108_trigger_handler K e f.xfer f.now u).trace
        = completions u.trace + 1 ∧
      pushes (max11108_trigger_handler K e f.xfer f.now u).trace
        = pushes u.trace + (if read_failed f = true then 0 else 1) ∧
      (read_failed f = true ↔
        (max11108_read_single K e f.xfer (List.replicate 16 0) (mutex_lock u)).ret ≠ 0)) := by
  refine ⟨run_firings_completions K e fs w, ?_, ?_⟩
  · have h := run_firings_pushes_of_nonpos K e fs w hK hfs
    have hle : fs.countP read_failed ≤ fs.length := List.countP_le_length _
    omega
  · intro f hf u
    exact ⟨trigger_handler_completions K e f.xfer f.now u,
      trigger_handler_pushes_of_nonpos K e f u hK (hfs f hf),
      read_failed_iff K e f _ _ hK⟩

/-- Witness for C3: four firings (a transport error `-5`, a valid frame, a frame with a
nonzero third byte, another valid frame) give four completion signals and two pushes. -/
theorem capture_liveness_witness :
    (0 : Int) < linuxConsts.EINVAL ∧
    (∀ f ∈ [(⟨⟨-5, 0, 0, 0⟩, 10⟩ : Firing), ⟨⟨0, 0x0F, 0xFE, 0⟩, 20⟩, ⟨⟨0, 0x0F, 0xFE, 9⟩, 30⟩,
        ⟨⟨0, 0x00, 0x02, 0⟩, 40⟩], f.xfer.status ≤ 0) ∧
    completions (run_firings linuxConsts .little
      [⟨⟨-5, 0, 0, 0⟩, 10⟩, ⟨⟨0, 0x0F, 0xFE, 0⟩, 20⟩, ⟨⟨0, 0x0F, 0xFE, 9⟩, 30⟩,
        ⟨⟨0, 0x00, 0x02, 0⟩, 40⟩] ⟨false, []⟩).trace = 4 ∧
    pushes (run_firings linuxConsts .little
      [⟨⟨-5, 0, 0, 0⟩, 10⟩, ⟨⟨0, 0x0F, 0xFE, 0⟩, 20⟩, ⟨⟨0, 0x0F, 0xFE, 9⟩, 30⟩,
        ⟨⟨0, 0x00, 0x02, 0⟩, 40⟩] ⟨false, []⟩).trace = 2 :=
  have h := capture_liveness linuxConsts .little
    [⟨⟨-5, 0, 0, 0⟩, 10⟩, ⟨⟨0, 0x0F, 0xFE, 0⟩, 20⟩, ⟨⟨0, 0x0F, 0xFE, 9⟩, 30⟩,
      ⟨⟨0, 0x00, 0x02, 0⟩, 40⟩] ⟨false, []⟩ (by decide) (by decide)
  ⟨by decide, by decide, h.1, h.2.1⟩

/-- C10: the channel is declared `IIO_LE` with 16 storage bits, yet on a big-endian host
the successful firing with bytes `(0x0F, 0xFE, 0x00)` (code 2047 = 0x7FF) pushes a buffer
whose bytes 0 and 1 are 0 and whose bytes 2 and 3 are 0x07 and 0xFF, where the claim asks
for byte 0 = 0xFF and byte 1 = 0x07. -/
theorem big_endian_host_push_layout :
    max11108_channels.map (fun c => (c.scan_type.endianness, c.scan_type.storagebits))
      = [(.IIO_LE, 16)] ∧
    pushed_data (max11108_trigger_handler linuxConsts .big ⟨0, 0x0F, 0xFE, 0x00⟩ 0
      ⟨false, []⟩).trace
      = [[0, 0, 0x07, 0xFF, 0, 0, 0, 0, 0, 0, 0, 0, 0, 0, 0, 0]] ∧
    pushed_data (max11108_trigger_handler linuxConsts .big ⟨0, 0x0F, 0xFE, 0x00⟩ 0
      ⟨false, []⟩).trace
      ≠ [[2047 &&& 0xFF, 2047 >>> 8, 0, 0, 0, 0, 0, 0, 0, 0, 0, 0, 0, 0, 0, 0]] := by
  refine ⟨by decide, by decide, by decide⟩

end Max11108
